import Mathlib

/-!
Shallow embedding of the stellar-fusion HTLC escrow and its deployment
factory (Rust/Soroban sources: stellar-fusion/src/{types,timelocks,storage,
lib}.rs and stellar-fusion-factory/src/lib.rs), together with theorems
settling the specification claims about them.

Modelling conventions:
* machine integers are `Nat`/`Int` with explicit reductions (`% 2^64`,
  two's-complement via `% 2^128`) where the Rust types wrap;
* `soroban_sdk` byte strings (`Bytes`, `BytesN<32>`) are `List Nat` of byte
  values; addresses are opaque `Nat` identifiers;
* the external SHA-256 collaborator (`env.crypto().sha256`) is an arbitrary
  function parameter `sha256 : Bytes → Bytes` — every theorem that needs it
  holds for all choices of that function;
* `panic_with_error` (a contract error) is `Outcome.fail e`; a raw panic or
  a failed host call (`expect`, `deploy_v2` on an occupied address, a failed
  nested `invoke_contract`) is `Outcome.trap`; the Soroban host commits an
  invocation's storage writes only when it returns successfully, so
  `runFactoryTx` restores the pre-call state on `fail`/`trap`.
-/

namespace StellarFusion

/-- Account / contract identifiers (Soroban `Address`), opaque. -/
abbrev Addr := Nat

/-- Byte strings (`soroban_sdk::Bytes`), one `Nat` per byte. -/
abbrev Bytes := List Nat

/-- Big-endian encoding of `x` into `w` bytes (least significant byte last),
as produced by Rust `to_be_bytes` after reduction modulo `2^(8*w)`. -/
def natToBeBytes : Nat → Nat → List Nat
  | 0, _ => []
  | w + 1, x => natToBeBytes w (x / 256) ++ [x % 256]

/-- Rust `i128::to_be_bytes`: two's-complement, 16 bytes, big-endian. -/
def i128ToBeBytes (x : Int) : List Nat :=
  natToBeBytes 16 (Int.toNat (x % ((2 : Int) ^ 128)))

/-- Rust `u64::to_be_bytes`: 8 bytes, big-endian. -/
def u64ToBeBytes (x : Nat) : List Nat :=
  natToBeBytes 8 (x % 2 ^ 64)

/-- Escrow lifecycle state (types.rs `State`). -/
inductive State where
  | Active
  | Withdrawn
  | Cancelled
deriving DecidableEq, Repr

/-- Escrow contract error codes (errors.rs `Error`). -/
inductive EscrowError where
  | InvalidState
  | InvalidSecret
  | TimelockNotExpired
  | CannotCancel
  | InvalidAmount
  | InvalidAddress
  | AlreadyInitialized
  | NotInitialized
  | InsufficientBalance
  | UnauthorizedCaller
deriving DecidableEq, Repr

/-- Factory contract error codes (stellar-fusion-factory lib.rs `Error`). -/
inductive FactoryError where
  | AlreadyInitialized
  | NotInitialized
  | AlreadyDeployed
  | InvalidParams
  | DeploymentFailed
deriving DecidableEq, Repr

/-- Immutable per-escrow terms (types.rs `Immutables`). -/
structure Immutables where
  order_hash : Bytes
  hashlock : Bytes
  maker : Addr
  taker : Addr
  token : Addr
  amount : Int
  safety_deposit : Int
  timelocks : Nat
deriving DecidableEq, Repr

/-- The literal bytes `b"MAKER_ADDR_PLACEHOLDER"` appended by
`Immutables::hash` in place of the maker address. -/
def MAKER_ADDR_PLACEHOLDER : Bytes :=
  "MAKER_ADDR_PLACEHOLDER".toList.map Char.toNat

/-- The literal bytes `b"TAKER_ADDR_PLACEHOLDER"` appended by
`Immutables::hash` in place of the taker address. -/
def TAKER_ADDR_PLACEHOLDER : Bytes :=
  "TAKER_ADDR_PLACEHOLDER".toList.map Char.toNat

/-- The literal bytes `b"TOKEN_ADDR_PLACEHOLDER"` appended by
`Immutables::hash` in place of the token address. -/
def TOKEN_ADDR_PLACEHOLDER : Bytes :=
  "TOKEN_ADDR_PLACEHOLDER".toList.map Char.toNat

/-- The byte buffer assembled by `Immutables::hash` (types.rs) before the
SHA-256 call: order_hash, hashlock, three fixed placeholder strings standing
in for the maker/taker/token addresses, then amount, safety_deposit and
timelocks in fixed-width big-endian form. -/
def Immutables.serialize (I : Immutables) : Bytes :=
  I.order_hash ++ I.hashlock ++
    MAKER_ADDR_PLACEHOLDER ++ TAKER_ADDR_PLACEHOLDER ++ TOKEN_ADDR_PLACEHOLDER ++
    i128ToBeBytes I.amount ++ i128ToBeBytes I.safety_deposit ++
    u64ToBeBytes I.timelocks

/-- `Immutables::hash`: SHA-256 of the serialized buffer, with the hash
collaborator abstracted as `sha256`. -/
def Immutables.hash (sha256 : Bytes → Bytes) (I : Immutables) : Bytes :=
  sha256 I.serialize

/-- Timelock slot index (types.rs). -/
def SRC_CANCELLATION_TIMELOCK : Nat := 2

/-- Timelock slot index (types.rs). -/
def DST_WITHDRAWAL_TIMELOCK : Nat := 4

/-- Timelock slot index (types.rs). -/
def DST_PUBLIC_WITHDRAWAL_TIMELOCK : Nat := 5

/-- Timelock slot index (types.rs). -/
def DST_CANCELLATION_TIMELOCK : Nat := 6

/-- timelocks.rs `get_timelock`: `((timelocks >> (index * 8)) & 0xFF) as u32`.
Note the mask is 8 bits wide even though the comment in the source speaks of
32-bit slots. -/
def get_timelock (timelocks : Nat) (index : Nat) : Nat :=
  (timelocks >>> (index * 8)) % 256

/-- timelocks.rs `can_withdraw`, with the ledger timestamp passed as `now`. -/
def can_withdraw (timelocks : Nat) (is_public : Bool) (now : Nat) : Bool :=
  if is_public then
    decide (now ≥ get_timelock timelocks DST_PUBLIC_WITHDRAWAL_TIMELOCK)
  else
    decide (now ≥ get_timelock timelocks DST_WITHDRAWAL_TIMELOCK)

/-- timelocks.rs `can_cancel`, with the ledger timestamp passed as `now`. -/
def can_cancel (timelocks : Nat) (now : Nat) (caller maker taker : Addr) : Bool :=
  if now ≥ get_timelock timelocks DST_CANCELLATION_TIMELOCK then
    true
  else if now ≥ get_timelock timelocks SRC_CANCELLATION_TIMELOCK then
    decide (caller = maker ∨ caller = taker)
  else
    false

/-- timelocks.rs `pack_timelocks`: OR each `u32` slot value shifted left by
`8 * index` bits into a `u64` (bits shifted above bit 63 are discarded). -/
def pack_timelocks (ts : List Nat) : Nat :=
  ts.enum.foldl
    (fun packed p => packed ||| (((p.2 % 2 ^ 32) <<< (p.1 * 8)) % 2 ^ 64)) 0

/-- Per-instance persistent storage of one escrow contract (storage.rs):
the `immutables` record and the `state` record, each possibly absent. -/
structure EscrowStorage where
  immutables : Option Immutables
  state : Option State
deriving DecidableEq, Repr

/-- storage.rs `is_initialized`: whether the immutables record exists. -/
def is_initialized (s : EscrowStorage) : Bool :=
  s.immutables.isSome

/-- storage.rs `get_state`: the stored state, defaulting to `Active` when no
state record exists (`unwrap_or(State::Active)`). -/
def get_state (s : EscrowStorage) : State :=
  s.state.getD State.Active

/-- Result of one contract invocation: a successful return value, a contract
error (`panic_with_error`, or a returned `Err` in the factory), or a trap (a
raw panic / failed host call), which carries no value at all. -/
inductive Outcome (ε α : Type) where
  | ok (a : α)
  | fail (e : ε)
  | trap
deriving DecidableEq, Repr

/-- One asset movement requested from the token collaborator:
(asset identifier, recipient, amount), always sent from the escrow itself. -/
abbrev Transfer := Addr × Addr × Int

/-- The fixed Stellar Asset Contract address for native XLM that
`get_native_token_address` returns (an opaque constant). -/
def native_token : Addr := 0

/-- lib.rs `is_native_token`: comparison against the fixed native address. -/
def is_native_token (token : Addr) : Bool :=
  token == native_token

/-- lib.rs `transfer_native`: a native-asset transfer from the escrow. -/
def transfer_native (dest : Addr) (amount : Int) : Transfer :=
  (native_token, dest, amount)

/-- lib.rs `transfer_tokens`: routed through the native client when `token`
is the native asset, through the token's own client otherwise; either way the
movement is `amount` of `token` to `dest`. -/
def transfer_tokens (token dest : Addr) (amount : Int) : Transfer :=
  if is_native_token token then transfer_native dest amount
  else (token, dest, amount)

/-- Result of one escrow operation: the `require_auth` identity proofs it
demanded, and its outcome — on success, the updated storage plus the list of
transfers it issued, in order. -/
structure OpRes where
  auths : List Addr
  out : Outcome EscrowError (EscrowStorage × List Transfer)
deriving DecidableEq, Repr

/-- lib.rs `StellarEscrow::deploy`: fails `AlreadyInitialized` when an
immutables record exists, otherwise stores the immutables and sets the state
record to `Active`. -/
def deployEscrow (s : EscrowStorage) (I : Immutables) :
    Outcome EscrowError EscrowStorage :=
  if is_initialized s then .fail .AlreadyInitialized
  else .ok { immutables := some I, state := some State.Active }

/-- lib.rs `StellarEscrow::withdraw` with the ledger timestamp passed as
`now`. No `require_auth` occurs on any path. A missing immutables record
makes the source's `expect` panic, modelled as `trap`. -/
def withdraw (sha256 : Bytes → Bytes) (now : Nat) (s : EscrowStorage)
    (secret : Bytes) (_unwrap_native : Bool) : OpRes :=
  { auths := []
    out :=
      if get_state s ≠ State.Active then .fail .InvalidState
      else
        match s.immutables with
        | none => .trap
        | some I =>
          if sha256 secret ≠ I.hashlock then .fail .InvalidSecret
          else if ¬ can_withdraw I.timelocks false now then
            .fail .TimelockNotExpired
          else
            .ok ({ s with state := some State.Withdrawn },
              transfer_tokens I.token I.taker I.amount ::
                (if I.safety_deposit > 0 then
                  [transfer_native I.maker I.safety_deposit]
                else [])) }

/-- lib.rs `StellarEscrow::cancel` with the ledger timestamp passed as
`now`; `caller.require_auth()` is its first action. -/
def cancel (now : Nat) (s : EscrowStorage) (caller : Addr) : OpRes :=
  { auths := [caller]
    out :=
      if get_state s ≠ State.Active then .fail .InvalidState
      else
        match s.immutables with
        | none => .trap
        | some I =>
          if ¬ can_cancel I.timelocks now caller I.maker I.taker then
            .fail .CannotCancel
          else
            .ok ({ s with state := some State.Cancelled },
              transfer_tokens I.token I.maker I.amount ::
                (if I.safety_deposit > 0 then
                  [transfer_native I.taker I.safety_deposit]
                else [])) }

/-- lib.rs `StellarEscrow::public_withdraw` with the ledger timestamp passed
as `now`; `caller.require_auth()` is its first action. The principal goes to
`caller` and each of maker and taker receives `safety_deposit / 2`
(Rust `i128` division). -/
def public_withdraw (sha256 : Bytes → Bytes) (now : Nat) (s : EscrowStorage)
    (secret : Bytes) (caller : Addr) : OpRes :=
  { auths := [caller]
    out :=
      if get_state s ≠ State.Active then .fail .InvalidState
      else
        match s.immutables with
        | none => .trap
        | some I =>
          if sha256 secret ≠ I.hashlock then .fail .InvalidSecret
          else if ¬ can_withdraw I.timelocks true now then
            .fail .TimelockNotExpired
          else
            .ok ({ s with state := some State.Withdrawn },
              transfer_tokens I.token caller I.amount ::
                (if I.safety_deposit > 0 then
                  [transfer_native I.maker (I.safety_deposit / 2),
                   transfer_native I.taker (I.safety_deposit / 2)]
                else [])) }

/-- Association-list lookup for storage maps (first binding wins). -/
def assocLookup {α β : Type} [DecidableEq α] : List (α × β) → α → Option β
  | [], _ => none
  | (k, v) :: rest, a => if k = a then some v else assocLookup rest a

/-- Association-list update for storage maps: prepend, so the new binding
shadows any older one (the overwrite semantics of `storage().set`). -/
def assocSet {α β : Type} [DecidableEq α] (l : List (α × β)) (a : α) (b : β) :
    List (α × β) :=
  (a, b) :: l

/-- Factory instance storage (stellar-fusion-factory lib.rs): admin, the
escrow WASM hash, the (unused after `initialize`) nonce, and the
`DeployedRegistry` mapping salts to escrow addresses. -/
structure FactoryStorage where
  admin : Option Addr
  htlc_hash : Option Bytes
  nonce : Option Nat
  deployed : List (Bytes × Addr)
deriving DecidableEq, Repr

/-- The ledger-visible world the factory operates on: its own storage plus
the per-address storage of every escrow contract instance that exists. -/
structure World where
  factory : FactoryStorage
  escrows : List (Addr × EscrowStorage)
deriving DecidableEq, Repr

/-- stellar-fusion-factory lib.rs `EscrowFactory::deploy_escrow`. The salt is
a caller argument. `derive` abstracts the host's deterministic address
derivation `deployer().with_current_contract(salt)` for this fixed factory
identity; `deploy_v2` traps when a contract already occupies the derived
address. The registry write happens before the nested `invoke_contract` of
the new instance's `deploy`; a failure of that nested call propagates as a
trap, aborting the whole invocation. -/
def deploy_escrow (derive : Bytes → Addr) (w : World) (salt : Bytes)
    (order_hash hashlock : Bytes) (maker taker token : Addr)
    (amount safety_deposit : Int) (timelocks : Nat) :
    Outcome FactoryError (Addr × World) :=
  match w.factory.htlc_hash with
  | none => .fail .NotInitialized
  | some _ =>
    if (assocLookup w.factory.deployed salt).isSome then .fail .AlreadyDeployed
    else if (assocLookup w.escrows (derive salt)).isSome then .trap
    else
      match deployEscrow { immutables := none, state := none }
          { order_hash := order_hash, hashlock := hashlock, maker := maker,
            taker := taker, token := token, amount := amount,
            safety_deposit := safety_deposit, timelocks := timelocks } with
      | .ok inst =>
        .ok (derive salt,
          { factory := { w.factory with
              deployed := assocSet w.factory.deployed salt (derive salt) },
            escrows := assocSet w.escrows (derive salt) inst })
      | _ => .trap

/-- Soroban host transaction semantics for a factory invocation: storage
writes are committed only when the invocation returns successfully; on a
contract error or a trap every write is rolled back (spec §5 atomicity). -/
def runFactoryTx (w : World) (r : Outcome FactoryError (Addr × World)) : World :=
  match r with
  | .ok (_, w2) => w2
  | _ => w

/-- Soroban host transaction semantics for an escrow invocation: the stored
state is replaced only when the operation succeeds. -/
def runEscrowTx (s : EscrowStorage) (r : OpRes) : EscrowStorage :=
  match r.out with
  | .ok (s2, _) => s2
  | _ => s

/-! ## Concrete inputs used by counterexamples and witnesses -/

/-- A sample set of escrow terms. -/
def sampleImm : Immutables :=
  { order_hash := List.replicate 32 1, hashlock := List.replicate 32 2,
    maker := 11, taker := 12, token := 13, amount := 1000,
    safety_deposit := 100, timelocks := 12345 }

/-- `sampleImm` with only the maker changed. -/
def sampleImmOtherMaker : Immutables :=
  { sampleImm with maker := 21 }

/-- A 32-byte secret (the test harness uses `[42u8; 32]`). -/
def sampleSecret : Bytes := List.replicate 32 42

/-- Escrow storage for the Scenario-D gating input: active, correct
hashlock for `sampleSecret` under the identity hash function, no safety
deposit, and a DST_WITHDRAWAL threshold of 2000 written at slot 4 with the
source's own `pack_timelocks`. -/
def gatingStorage : EscrowStorage :=
  { immutables := some
      { order_hash := List.replicate 32 1, hashlock := sampleSecret,
        maker := 11, taker := 12, token := 13, amount := 1000,
        safety_deposit := 0,
        timelocks := pack_timelocks [0, 0, 0, 0, 2000, 0, 0] },
    state := some State.Active }

/-- An escrow instance on which `deploy` was never called: neither storage
record exists. -/
def uninitStorage : EscrowStorage :=
  { immutables := none, state := none }

/-- An active escrow holding `sampleImm`-like terms with a positive safety
deposit and all timelock thresholds zero. -/
def cancelStorage : EscrowStorage :=
  { immutables := some
      { order_hash := List.replicate 32 1, hashlock := sampleSecret,
        maker := 11, taker := 12, token := 13, amount := 1000,
        safety_deposit := 100, timelocks := 0 },
    state := some State.Active }

/-- An active escrow with an odd safety deposit of 3 stroops and all
timelock thresholds zero. -/
def oddDepositStorage : EscrowStorage :=
  { immutables := some
      { order_hash := List.replicate 32 1, hashlock := sampleSecret,
        maker := 11, taker := 12, token := 13, amount := 1000,
        safety_deposit := 3, timelocks := 0 },
    state := some State.Active }

/-- An escrow that has already been withdrawn (terminal state). -/
def withdrawnStorage : EscrowStorage :=
  { immutables := some sampleImm, state := some State.Withdrawn }

/-- An initialized factory with an empty `DeployedRegistry`. -/
def initFactory : FactoryStorage :=
  { admin := some 99, htlc_hash := some (List.replicate 32 9),
    nonce := some 0, deployed := [] }

/-- A world holding the initialized factory and no escrow instances. -/
def emptyWorld : World :=
  { factory := initFactory, escrows := [] }

/-- A world where the address `100` is already occupied by a contract, so
`deploy_v2` for any salt deriving to `100` fails. -/
def occupiedWorld : World :=
  { factory := initFactory,
    escrows := [(100, { immutables := some sampleImm, state := some State.Active })] }

/-- A concrete caller-computed salt. -/
def saltA : Bytes := List.replicate 32 0

/-- A second, different caller-computed salt. -/
def saltB : Bytes := List.replicate 32 7

/-- A concrete host address-derivation function standing in for
`deployer().with_current_contract(salt).deployed_address()`. -/
def sampleDerive : Bytes → Addr := fun s => 100 + s.headD 0

/-! ## Claim theorems -/

/-- C1: the digest of `Immutables::hash` ignores the maker, taker and token
fields — the source appends fixed placeholder strings in their place — so two
Immutables that differ only in the maker produce byte-identical serializations
and hence the identical digest under every choice of the SHA-256 collaborator,
contradicting the required field sensitivity. -/
theorem immutables_hash_ignores_maker :
    sampleImm.maker ≠ sampleImmOtherMaker.maker ∧
    Immutables.serialize sampleImm = Immutables.serialize sampleImmOtherMaker ∧
    ∀ sha256 : Bytes → Bytes,
      Immutables.hash sha256 sampleImm = Immutables.hash sha256 sampleImmOtherMaker :=
  ⟨by decide, rfl, fun _ => rfl⟩

/-- C2: with a DST_WITHDRAWAL threshold of 2000 packed at slot 4 by the
source's own `pack_timelocks`, `get_timelock` reads back only the low 8 bits
(208), so at ledger time 1000 `withdraw` with the correct secret succeeds and
sets the state to `Withdrawn` instead of failing `TimelockNotExpired`. -/
theorem withdraw_at_1000_ignores_threshold_2000 :
    get_timelock (pack_timelocks [0, 0, 0, 0, 2000, 0, 0])
        DST_WITHDRAWAL_TIMELOCK = 208 ∧
    (withdraw id 1000 gatingStorage sampleSecret false).out =
      .ok ({ gatingStorage with state := some State.Withdrawn },
        [transfer_tokens 13 12 1000]) := by
  constructor
  · decide
  · decide

/-- C10: on an escrow instance that was never initialized, `get_state`
returns `Active` (storage.rs defaults a missing state record to `Active`), so
`withdraw`, `public_withdraw` and `cancel` all pass their state precondition —
none of them fails `InvalidState`; each instead traps later, at the source's
`expect` on the missing immutables record. -/
theorem get_state_uninitialized_defaults_active :
    get_state uninitStorage = State.Active ∧
    ∀ (sha256 : Bytes → Bytes) (now : Nat) (secret : Bytes) (u : Bool)
      (caller : Addr),
      (withdraw sha256 now uninitStorage secret u).out = .trap ∧
      (withdraw sha256 now uninitStorage secret u).out ≠ .fail .InvalidState ∧
      (public_withdraw sha256 now uninitStorage secret caller).out = .trap ∧
      (public_withdraw sha256 now uninitStorage secret caller).out ≠
        .fail .InvalidState ∧
      (cancel now uninitStorage caller).out = .trap ∧
      (cancel now uninitStorage caller).out ≠ .fail .InvalidState := by
  refine ⟨rfl, fun sha256 now secret u caller => ?_⟩
  refine ⟨rfl, by simp [withdraw, get_state, uninitStorage],
    rfl, by simp [public_withdraw, get_state, uninitStorage],
    rfl, by simp [cancel, get_state, uninitStorage]⟩

/-- C10 witness: the default-Active behaviour applied at concrete inputs:
`withdraw` on the uninitialized escrow at time 0 traps (past the state
check) instead of failing `InvalidState`. -/
theorem get_state_uninitialized_defaults_active_witness :
    get_state uninitStorage = State.Active ∧
    (withdraw id 0 uninitStorage sampleSecret false).out = .trap :=
  ⟨get_state_uninitialized_defaults_active.1,
    (get_state_uninitialized_defaults_active.2 id 0 sampleSecret false 11).1⟩

/-- C6: full contract of `withdraw`: it performs no `require_auth` on any
branch; with state not `Active` it fails `InvalidState`; with state `Active`
and a secret whose hash differs from the stored hashlock it fails
`InvalidSecret`; with a matching secret but the non-public withdrawal window
(slot `DST_WITHDRAWAL`) not yet open it fails `TimelockNotExpired`; otherwise
it transfers `amount` of `token` to the taker, refunds the full
`safety_deposit` to the maker when positive, and sets the state to
`Withdrawn`. -/
theorem withdraw_contract (sha256 : Bytes → Bytes) (now : Nat)
    (s : EscrowStorage) (secret : Bytes) (u : Bool) (I : Immutables)
    (hI : s.immutables = some I) :
    (withdraw sha256 now s secret u).auths = [] ∧
    (get_state s ≠ State.Active →
      (withdraw sha256 now s secret u).out = .fail .InvalidState) ∧
    (get_state s = State.Active → sha256 secret ≠ I.hashlock →
      (withdraw sha256 now s secret u).out = .fail .InvalidSecret) ∧
    (get_state s = State.Active → sha256 secret = I.hashlock →
      now < get_timelock I.timelocks DST_WITHDRAWAL_TIMELOCK →
      (withdraw sha256 now s secret u).out = .fail .TimelockNotExpired) ∧
    (get_state s = State.Active → sha256 secret = I.hashlock →
      now ≥ get_timelock I.timelocks DST_WITHDRAWAL_TIMELOCK →
      (withdraw sha256 now s secret u).out =
        .ok ({ s with state := some State.Withdrawn },
          transfer_tokens I.token I.taker I.amount ::
            (if I.safety_deposit > 0 then
              [transfer_native I.maker I.safety_deposit]
            else []))) := by
  refine ⟨rfl, fun hst => ?_, fun hst hsec => ?_, fun hst hsec htl => ?_,
    fun hst hsec htl => ?_⟩
  · simp [withdraw, hI, hst]
  · simp [withdraw, hI, hst, hsec]
  · have htl2 : can_withdraw I.timelocks false now = false := by
      simp [can_withdraw]
      omega
    simp [withdraw, hI, hst, hsec, htl2]
  · have htl2 : can_withdraw I.timelocks false now = true := by
      simp [can_withdraw]
      omega
    simp [withdraw, hI, hst, hsec, htl2]

/-- C6 witness: the contract of `withdraw` applied at concrete inputs (the
active `gatingStorage` escrow, identity hash, ledger time 1000, matching
secret): the success branch fires with the stated transfers and no auths. -/
theorem withdraw_contract_witness :
    (withdraw id 1000 gatingStorage sampleSecret false).auths = [] ∧
    (withdraw id 1000 gatingStorage sampleSecret false).out =
      .ok ({ gatingStorage with state := some State.Withdrawn },
        [transfer_tokens 13 12 1000]) := by
  have h := withdraw_contract id 1000 gatingStorage sampleSecret false _ rfl
  refine ⟨h.1, ?_⟩
  have h2 := h.2.2.2.2 rfl rfl (by decide)
  simpa using h2

/-- Helper: `can_cancel` returns true exactly when the public cancellation
window is open, or the source cancellation window is open and the caller is
one of the two parties. -/
theorem can_cancel_eq_true_iff (t now : Nat) (c m tk : Addr) :
    can_cancel t now c m tk = true ↔
      (now ≥ get_timelock t DST_CANCELLATION_TIMELOCK ∨
        (now ≥ get_timelock t SRC_CANCELLATION_TIMELOCK ∧ (c = m ∨ c = tk))) := by
  unfold can_cancel
  by_cases h6 : now ≥ get_timelock t DST_CANCELLATION_TIMELOCK
  · simp [h6]
  · by_cases h2 : now ≥ get_timelock t SRC_CANCELLATION_TIMELOCK
    · simp [h6, h2]
    · simp [h6, h2]

/-- C7: full contract of `cancel`: it demands an identity proof from the
caller; with state not `Active` it fails `InvalidState`; with state `Active`
it succeeds — returning `amount` of `token` to the maker, paying the
`safety_deposit` to the taker when positive, and setting the state to
`Cancelled` — exactly when `now` has reached the `DST_CANCELLATION` threshold
(any caller) or has reached the `SRC_CANCELLATION` threshold with the caller
being maker or taker; otherwise it fails `CannotCancel`. -/
theorem cancel_contract (now : Nat) (s : EscrowStorage) (caller : Addr)
    (I : Immutables) (hI : s.immutables = some I) :
    (cancel now s caller).auths = [caller] ∧
    (get_state s ≠ State.Active →
      (cancel now s caller).out = .fail .InvalidState) ∧
    (get_state s = State.Active →
      ((cancel now s caller).out =
          .ok ({ s with state := some State.Cancelled },
            transfer_tokens I.token I.maker I.amount ::
              (if I.safety_deposit > 0 then
                [transfer_native I.taker I.safety_deposit]
              else [])) ↔
        (now ≥ get_timelock I.timelocks DST_CANCELLATION_TIMELOCK ∨
          (now ≥ get_timelock I.timelocks SRC_CANCELLATION_TIMELOCK ∧
            (caller = I.maker ∨ caller = I.taker)))) ∧
      (¬ (now ≥ get_timelock I.timelocks DST_CANCELLATION_TIMELOCK ∨
          (now ≥ get_timelock I.timelocks SRC_CANCELLATION_TIMELOCK ∧
            (caller = I.maker ∨ caller = I.taker))) →
        (cancel now s caller).out = .fail .CannotCancel)) := by
  have hiff := can_cancel_eq_true_iff I.timelocks now caller I.maker I.taker
  refine ⟨rfl, fun hst => by simp [cancel, hI, hst], fun hst => ?_⟩
  simp only [← hiff]
  cases hcc : can_cancel I.timelocks now caller I.maker I.taker
  · simp [cancel, hI, hst, hcc]
  · simp [cancel, hI, hst, hcc]

/-- C7 witness: `cancel` applied at concrete inputs — `cancelStorage` is
active with all thresholds zero, so the maker's cancellation at time 5
succeeds with the stated transfers after its identity proof. -/
theorem cancel_contract_witness :
    (cancel 5 cancelStorage 11).auths = [11] ∧
    (cancel 5 cancelStorage 11).out =
      .ok ({ cancelStorage with state := some State.Cancelled },
        [transfer_tokens 13 11 1000, transfer_native 12 100]) := by
  have h := cancel_contract 5 cancelStorage 11 _ rfl
  refine ⟨h.1, ?_⟩
  have h2 := (h.2.2 rfl).1.mpr (Or.inl (by decide))
  simpa using h2

/-- C9 counterexample: a successful `public_withdraw` on an escrow with an
odd safety deposit of 3 pays the principal to the caller but only 1 stroop
each to maker and taker — the payouts sum to 2, not to the entire deposit 3,
refuting the claim for odd deposits. -/
theorem public_withdraw_odd_deposit_counterexample :
    (public_withdraw id 0 oddDepositStorage sampleSecret 77).out =
      .ok ({ oddDepositStorage with state := some State.Withdrawn },
        [transfer_tokens 13 77 1000, transfer_native 11 1, transfer_native 12 1]) ∧
    (1 : Int) + 1 ≠ 3 := by
  exact ⟨by decide, by decide⟩

/-- C9 amended: on every successful `public_withdraw` with positive safety
deposit, the principal goes to the caller and maker and taker each receive
`safety_deposit / 2` (truncating integer division), so their payouts sum to
`safety_deposit - safety_deposit % 2` — the entire deposit when it is even,
one stroop less when it is odd. -/
theorem public_withdraw_splits_deposit_floor (sha256 : Bytes → Bytes)
    (now : Nat) (s : EscrowStorage) (secret : Bytes) (caller : Addr)
    (I : Immutables) (hI : s.immutables = some I)
    (hst : get_state s = State.Active) (hsec : sha256 secret = I.hashlock)
    (htl : can_withdraw I.timelocks true now = true)
    (hsd : I.safety_deposit > 0) :
    (public_withdraw sha256 now s secret caller).auths = [caller] ∧
    (public_withdraw sha256 now s secret caller).out =
      .ok ({ s with state := some State.Withdrawn },
        [transfer_tokens I.token caller I.amount,
         transfer_native I.maker (I.safety_deposit / 2),
         transfer_native I.taker (I.safety_deposit / 2)]) ∧
    I.safety_deposit / 2 + I.safety_deposit / 2 =
      I.safety_deposit - I.safety_deposit % 2 := by
  refine ⟨rfl, by simp [public_withdraw, hI, hst, hsec, htl, hsd], ?_⟩
  omega

/-- C9 witness: the amended split applied at the concrete odd deposit 3 —
maker and taker each get `3 / 2 = 1` and `1 + 1 = 3 - 3 % 2`. -/
theorem public_withdraw_splits_deposit_floor_witness :
    (public_withdraw id 0 oddDepositStorage sampleSecret 77).auths = [77] ∧
    (public_withdraw id 0 oddDepositStorage sampleSecret 77).out =
      .ok ({ oddDepositStorage with state := some State.Withdrawn },
        [transfer_tokens 13 77 1000, transfer_native 11 1, transfer_native 12 1]) := by
  have h := public_withdraw_splits_deposit_floor id 0 oddDepositStorage
    sampleSecret 77 _ rfl rfl rfl (by decide) (by decide)
  exact ⟨h.1, by simpa using h.2.1⟩

/-- Helper: a successful `withdraw` starts from `Active` and ends in
`Withdrawn`. -/
theorem withdraw_ok_transitions (sha256 : Bytes → Bytes) (now : Nat)
    (s0 : EscrowStorage) (secret : Bytes) (u : Bool) (s2 : EscrowStorage)
    (trs : List Transfer)
    (h : (withdraw sha256 now s0 secret u).out = .ok (s2, trs)) :
    get_state s0 = State.Active ∧ get_state s2 = State.Withdrawn := by
  simp only [withdraw] at h
  split at h
  · exact Outcome.noConfusion h
  next hst =>
    refine ⟨not_not.mp hst, ?_⟩
    split at h
    · exact Outcome.noConfusion h
    next I hmi =>
      split at h
      · exact Outcome.noConfusion h
      · split at h
        · exact Outcome.noConfusion h
        · rw [Outcome.ok.injEq, Prod.mk.injEq] at h
          obtain ⟨h1, h2⟩ := h
          subst h1
          simp [get_state]

/-- Helper: a successful `public_withdraw` starts from `Active` and ends in
`Withdrawn`. -/
theorem public_withdraw_ok_transitions (sha256 : Bytes → Bytes) (now : Nat)
    (s0 : EscrowStorage) (secret : Bytes) (caller : Addr) (s2 : EscrowStorage)
    (trs : List Transfer)
    (h : (public_withdraw sha256 now s0 secret caller).out = .ok (s2, trs)) :
    get_state s0 = State.Active ∧ get_state s2 = State.Withdrawn := by
  simp only [public_withdraw] at h
  split at h
  · exact Outcome.noConfusion h
  next hst =>
    refine ⟨not_not.mp hst, ?_⟩
    split at h
    · exact Outcome.noConfusion h
    next I hmi =>
      split at h
      · exact Outcome.noConfusion h
      · split at h
        · exact Outcome.noConfusion h
        · rw [Outcome.ok.injEq, Prod.mk.injEq] at h
          obtain ⟨h1, h2⟩ := h
          subst h1
          simp [get_state]

/-- Helper: a successful `cancel` starts from `Active` and ends in
`Cancelled`. -/
theorem cancel_ok_transitions (now : Nat) (s0 : EscrowStorage) (caller : Addr)
    (s2 : EscrowStorage) (trs : List Transfer)
    (h : (cancel now s0 caller).out = .ok (s2, trs)) :
    get_state s0 = State.Active ∧ get_state s2 = State.Cancelled := by
  simp only [cancel] at h
  split at h
  · exact Outcome.noConfusion h
  next hst =>
    refine ⟨not_not.mp hst, ?_⟩
    split at h
    · exact Outcome.noConfusion h
    next I hmi =>
      split at h
      · exact Outcome.noConfusion h
      · rw [Outcome.ok.injEq, Prod.mk.injEq] at h
        obtain ⟨h1, h2⟩ := h
        subst h1
        simp [get_state]

/-- C8: terminal-state invariant. On an escrow whose stored state is
`Withdrawn` or `Cancelled`, `withdraw`, `public_withdraw` and `cancel` all
fail `InvalidState` and commit no storage change, and `deploy` fails
`AlreadyInitialized`; moreover every successful mutating operation moves the
state exactly `Active → Withdrawn` (withdraw, public_withdraw) or
`Active → Cancelled` (cancel), so no operation ever leaves a terminal
state. -/
theorem terminal_state_invariant (sha256 : Bytes → Bytes) (now : Nat)
    (s : EscrowStorage) (secret : Bytes) (u : Bool) (caller : Addr)
    (I J : Immutables) (hI : s.immutables = some I)
    (hterm : get_state s = State.Withdrawn ∨ get_state s = State.Cancelled) :
    ((withdraw sha256 now s secret u).out = .fail .InvalidState ∧
      runEscrowTx s (withdraw sha256 now s secret u) = s) ∧
    ((public_withdraw sha256 now s secret caller).out = .fail .InvalidState ∧
      runEscrowTx s (public_withdraw sha256 now s secret caller) = s) ∧
    ((cancel now s caller).out = .fail .InvalidState ∧
      runEscrowTx s (cancel now s caller) = s) ∧
    deployEscrow s J = .fail .AlreadyInitialized ∧
    (∀ (s0 s2 : EscrowStorage) (trs : List Transfer),
      ((withdraw sha256 now s0 secret u).out = .ok (s2, trs) →
        get_state s0 = State.Active ∧ get_state s2 = State.Withdrawn) ∧
      ((public_withdraw sha256 now s0 secret caller).out = .ok (s2, trs) →
        get_state s0 = State.Active ∧ get_state s2 = State.Withdrawn) ∧
      ((cancel now s0 caller).out = .ok (s2, trs) →
        get_state s0 = State.Active ∧ get_state s2 = State.Cancelled)) := by
  have hne : get_state s ≠ State.Active := by
    rcases hterm with h | h <;> simp [h]
  have hw : (withdraw sha256 now s secret u).out = .fail .InvalidState := by
    simp [withdraw, hne]
  have hp : (public_withdraw sha256 now s secret caller).out =
      .fail .InvalidState := by
    simp [public_withdraw, hne]
  have hc : (cancel now s caller).out = .fail .InvalidState := by
    simp [cancel, hne]
  refine ⟨⟨hw, by simp [runEscrowTx, hw]⟩, ⟨hp, by simp [runEscrowTx, hp]⟩,
    ⟨hc, by simp [runEscrowTx, hc]⟩,
    by simp [deployEscrow, is_initialized, hI],
    fun s0 s2 trs =>
      ⟨withdraw_ok_transitions sha256 now s0 secret u s2 trs,
       public_withdraw_ok_transitions sha256 now s0 secret caller s2 trs,
       cancel_ok_transitions now s0 caller s2 trs⟩⟩

/-- C8 witness: the invariant applied at the concrete withdrawn escrow
`withdrawnStorage`: every mutating attempt is rejected with the stated error
and the storage is unchanged. -/
theorem terminal_state_invariant_witness :
    (withdraw id 0 withdrawnStorage sampleSecret false).out =
      .fail .InvalidState ∧
    runEscrowTx withdrawnStorage (withdraw id 0 withdrawnStorage sampleSecret false) =
      withdrawnStorage ∧
    (public_withdraw id 0 withdrawnStorage sampleSecret 77).out =
      .fail .InvalidState ∧
    (cancel 0 withdrawnStorage 11).out = .fail .InvalidState ∧
    deployEscrow withdrawnStorage sampleImm = .fail .AlreadyInitialized := by
  have h := terminal_state_invariant id 0 withdrawnStorage sampleSecret false
    11 sampleImm sampleImm rfl (Or.inl rfl)
  exact ⟨h.1.1, h.1.2, h.2.1.1, h.2.2.1.1, h.2.2.2.1⟩

/-- Helper: `StellarEscrow::deploy` on a freshly instantiated (hence
uninitialized) escrow always succeeds and stores the immutables with state
`Active`. -/
theorem deployEscrow_fresh (I : Immutables) :
    deployEscrow { immutables := none, state := none } I =
      .ok { immutables := some I, state := some State.Active } := rfl

/-- C3 counterexample: the factory's salt is a caller argument, not a
function of the immutables. From the same initialized world, the identical
immutables deploy successfully under two different caller-chosen salts,
producing two different escrow identities — so the salt of a deployment does
not equal (or even depend on) `hash(immutables)`. -/
theorem deploy_salt_is_caller_chosen :
    saltA ≠ saltB ∧
    deploy_escrow sampleDerive emptyWorld saltA sampleImm.order_hash
        sampleImm.hashlock sampleImm.maker sampleImm.taker sampleImm.token
        sampleImm.amount sampleImm.safety_deposit sampleImm.timelocks =
      .ok (100,
        { factory := { initFactory with deployed := [(saltA, 100)] },
          escrows :=
            [(100, { immutables := some sampleImm, state := some State.Active })] }) ∧
    deploy_escrow sampleDerive emptyWorld saltB sampleImm.order_hash
        sampleImm.hashlock sampleImm.maker sampleImm.taker sampleImm.token
        sampleImm.amount sampleImm.safety_deposit sampleImm.timelocks =
      .ok (107,
        { factory := { initFactory with deployed := [(saltB, 107)] },
          escrows :=
            [(107, { immutables := some sampleImm, state := some State.Active })] }) := by
  exact ⟨by decide, by decide, by decide⟩

/-- C3 amended: in the factory as implemented, the salt is supplied by the
caller (computed off-chain), not derived in-contract from the immutables;
what the factory guarantees is that every successful deployment's escrow
identity is `derive(salt)` — deterministic in the supplied salt and the fixed
host derivation, with no dependence on any factory-internal counter or clock
— and that the registry binds that salt to exactly that identity. -/
theorem deploy_escrow_identity_from_salt (derive : Bytes → Addr) (w : World)
    (salt oh hl : Bytes) (mk tk tok : Addr) (am sd : Int) (tl : Nat)
    (addr : Addr) (w2 : World)
    (h : deploy_escrow derive w salt oh hl mk tk tok am sd tl = .ok (addr, w2)) :
    addr = derive salt ∧
    assocLookup w2.factory.deployed salt = some (derive salt) := by
  unfold deploy_escrow at h
  split at h
  · exact Outcome.noConfusion h
  · split at h
    · exact Outcome.noConfusion h
    · split at h
      · exact Outcome.noConfusion h
      · rw [deployEscrow_fresh] at h
        rw [Outcome.ok.injEq, Prod.mk.injEq] at h
        obtain ⟨h1, h2⟩ := h
        subst h1
        subst h2
        exact ⟨rfl, by simp [assocSet, assocLookup]⟩

/-- C3 witness: the amended guarantee applied at the concrete deployment
under `saltA`: the returned identity is `sampleDerive saltA = 100` and the
registry binds `saltA` to it. -/
theorem deploy_escrow_identity_from_salt_witness :
    (100 : Addr) = sampleDerive saltA ∧
    assocLookup
      ({ factory := { initFactory with deployed := [(saltA, 100)] },
         escrows :=
           [(100, { immutables := some sampleImm, state := some State.Active })] } : World).factory.deployed
      saltA = some (sampleDerive saltA) :=
  deploy_escrow_identity_from_salt sampleDerive emptyWorld saltA
    sampleImm.order_hash sampleImm.hashlock sampleImm.maker sampleImm.taker
    sampleImm.token sampleImm.amount sampleImm.safety_deposit
    sampleImm.timelocks 100 _ (by decide)

/-- C4: factory deployment is idempotent per call terms: after a successful
`deploy_escrow`, the registry binds the salt to the returned identity, and
repeating the identical call fails `AlreadyDeployed` while the committed
world — registry entry and escrow identity included — is unchanged by the
second attempt. -/
theorem deploy_escrow_idempotent (derive : Bytes → Addr) (w : World)
    (salt oh hl : Bytes) (mk tk tok : Addr) (am sd : Int) (tl : Nat)
    (addr : Addr) (w2 : World)
    (h : deploy_escrow derive w salt oh hl mk tk tok am sd tl = .ok (addr, w2)) :
    assocLookup w2.factory.deployed salt = some addr ∧
    deploy_escrow derive w2 salt oh hl mk tk tok am sd tl =
      .fail .AlreadyDeployed ∧
    runFactoryTx w2 (deploy_escrow derive w2 salt oh hl mk tk tok am sd tl) =
      w2 := by
  unfold deploy_escrow at h
  split at h
  · exact Outcome.noConfusion h
  next x hx =>
    split at h
    · exact Outcome.noConfusion h
    · split at h
      · exact Outcome.noConfusion h
      · rw [deployEscrow_fresh] at h
        rw [Outcome.ok.injEq, Prod.mk.injEq] at h
        obtain ⟨h1, h2⟩ := h
        subst h1
        subst h2
        have hsecond :
            deploy_escrow derive
              { factory := { w.factory with
                  deployed := assocSet w.factory.deployed salt (derive salt) },
                escrows := assocSet w.escrows (derive salt)
                  { immutables := some
                      { order_hash := oh, hashlock := hl, maker := mk,
                        taker := tk, token := tok, amount := am,
                        safety_deposit := sd, timelocks := tl },
                    state := some State.Active } }
              salt oh hl mk tk tok am sd tl = .fail .AlreadyDeployed := by
          simp [deploy_escrow, assocSet, assocLookup, hx]
        exact ⟨by simp [assocSet, assocLookup], hsecond, by rw [hsecond]; rfl⟩

/-- C4 witness: idempotence applied at the concrete first deployment under
`saltA`: the second identical call fails `AlreadyDeployed` and commits
nothing. -/
theorem deploy_escrow_idempotent_witness :
    assocLookup
      ({ factory := { initFactory with deployed := [(saltA, 100)] },
         escrows :=
           [(100, { immutables := some sampleImm, state := some State.Active })] } : World).factory.deployed
      saltA = some 100 ∧
    deploy_escrow sampleDerive
      { factory := { initFactory with deployed := [(saltA, 100)] },
        escrows :=
          [(100, { immutables := some sampleImm, state := some State.Active })] }
      saltA sampleImm.order_hash sampleImm.hashlock sampleImm.maker
      sampleImm.taker sampleImm.token sampleImm.amount
      sampleImm.safety_deposit sampleImm.timelocks = .fail .AlreadyDeployed :=
  have h := deploy_escrow_idempotent sampleDerive emptyWorld saltA
    sampleImm.order_hash sampleImm.hashlock sampleImm.maker sampleImm.taker
    sampleImm.token sampleImm.amount sampleImm.safety_deposit
    sampleImm.timelocks 100 _ (by decide)
  ⟨h.1, h.2.1⟩

/-- C5 counterexample: a deployment whose instantiation fails — the derived
address `sampleDerive saltA = 100` is already occupied in `occupiedWorld` —
makes `deploy_escrow` abort with a trap, not return `DeploymentFailed`; the
registry still holds no entry for that salt once the aborted invocation is
rolled back. -/
theorem deploy_failure_traps_not_deploymentfailed :
    assocLookup occupiedWorld.factory.deployed saltA = none ∧
    deploy_escrow sampleDerive occupiedWorld saltA sampleImm.order_hash
        sampleImm.hashlock sampleImm.maker sampleImm.taker sampleImm.token
        sampleImm.amount sampleImm.safety_deposit sampleImm.timelocks =
      .trap ∧
    (Outcome.trap : Outcome FactoryError (Addr × World)) ≠
      .fail .DeploymentFailed ∧
    runFactoryTx occupiedWorld
      (deploy_escrow sampleDerive occupiedWorld saltA sampleImm.order_hash
        sampleImm.hashlock sampleImm.maker sampleImm.taker sampleImm.token
        sampleImm.amount sampleImm.safety_deposit sampleImm.timelocks) =
      occupiedWorld := by
  exact ⟨rfl, by decide, by decide, by decide⟩

/-- C5 amended: whenever instantiation of the escrow instance fails (the
derived address is already occupied, the only failure the code can encounter
here — and a failure of the nested `create` likewise ends in the `trap`
branch), `deploy_escrow` aborts with a trap rather than returning
`DeploymentFailed`; since the host rolls back an aborted invocation, no
partial state is retained and the registry holds no entry for the salt after
the failed call. -/
theorem deploy_instantiation_failure_aborts (derive : Bytes → Addr)
    (w : World) (salt oh hl : Bytes) (mk tk tok : Addr) (am sd : Int)
    (tl : Nat) (x : Bytes)
    (hinit : w.factory.htlc_hash = some x)
    (hreg : assocLookup w.factory.deployed salt = none)
    (hocc : (assocLookup w.escrows (derive salt)).isSome = true) :
    deploy_escrow derive w salt oh hl mk tk tok am sd tl = .trap ∧
    deploy_escrow derive w salt oh hl mk tk tok am sd tl ≠
      .fail .DeploymentFailed ∧
    runFactoryTx w (deploy_escrow derive w salt oh hl mk tk tok am sd tl) = w ∧
    assocLookup
      (runFactoryTx w
        (deploy_escrow derive w salt oh hl mk tk tok am sd tl)).factory.deployed
      salt = none := by
  have h1 : deploy_escrow derive w salt oh hl mk tk tok am sd tl = .trap := by
    simp [deploy_escrow, hinit, hreg, hocc]
  exact ⟨h1, by simp [h1], by simp [runFactoryTx, h1],
    by simp [runFactoryTx, h1, hreg]⟩

/-- C5 witness: the amended statement applied at the concrete occupied
world: the call traps and the registry still has no entry for `saltA`. -/
theorem deploy_instantiation_failure_aborts_witness :
    deploy_escrow sampleDerive occupiedWorld saltA sampleImm.order_hash
        sampleImm.hashlock sampleImm.maker sampleImm.taker sampleImm.token
        sampleImm.amount sampleImm.safety_deposit sampleImm.timelocks =
      .trap ∧
    assocLookup
      (runFactoryTx occupiedWorld
        (deploy_escrow sampleDerive occupiedWorld saltA sampleImm.order_hash
          sampleImm.hashlock sampleImm.maker sampleImm.taker sampleImm.token
          sampleImm.amount sampleImm.safety_deposit
          sampleImm.timelocks)).factory.deployed saltA = none :=
  have h := deploy_instantiation_failure_aborts sampleDerive occupiedWorld
    saltA sampleImm.order_hash sampleImm.hashlock sampleImm.maker
    sampleImm.taker sampleImm.token sampleImm.amount sampleImm.safety_deposit
    sampleImm.timelocks (List.replicate 32 9) rfl rfl (by decide)
  ⟨h.1, h.2.2.2⟩

end StellarFusion
